import Mathlib

/-
  Verification development for the wip_c3_flex UI layout engine.

  The definitions below are a shallow embedding of the layout engine found in
  src/scripts/ui_layout_debug.js (which contains both the step-by-step debug
  driver and the full flex-aware UILayout class).  Geometry is modelled over
  the rationals; JavaScript dynamic values are modelled with small sum types.
  Two JavaScript quirks are modelled explicitly because the engine depends on
  them:
  - parseFloat of an undefined flexShrink yields NaN, and NaN compares false
    against every number, so a child with no declared flexShrink is classified
    as a fixed item, not as a flex item with shrink factor 1.  We model the
    possibly-NaN shrink factor as an Option over the rationals.
  - JavaScript truthiness: the number 0 and undefined are falsy; this matters
    in hasFlexChildren and in the flex-basis handling.
-/

namespace UIFlex

/-- A parsed CSS size value: a plain number or a percentage string. -/
inductive SizeVal : Type where
  | num (q : ℚ)
  | pct (q : ℚ)
  deriving DecidableEq

/-- A parsed flex-basis value: a number, the keyword auto, or a percentage. -/
inductive BasisVal : Type where
  | num (q : ℚ)
  | auto
  | pct (q : ℚ)
  deriving DecidableEq

/-- The computed style of a node: the subset of properties the layout engine
reads, each optional exactly as in the JavaScript style object. -/
structure Style where
  display : Option String := none
  position : Option String := none
  gap : Option ℚ := none
  padding : Option ℚ := none
  paddingTop : Option ℚ := none
  paddingRight : Option ℚ := none
  paddingBottom : Option ℚ := none
  paddingLeft : Option ℚ := none
  margin : Option ℚ := none
  marginTop : Option ℚ := none
  marginRight : Option ℚ := none
  marginBottom : Option ℚ := none
  marginLeft : Option ℚ := none
  border : Option ℚ := none
  borderWidth : Option ℚ := none
  borderTopWidth : Option ℚ := none
  borderRightWidth : Option ℚ := none
  borderBottomWidth : Option ℚ := none
  borderLeftWidth : Option ℚ := none
  width : Option SizeVal := none
  height : Option SizeVal := none
  minWidth : Option ℚ := none
  maxWidth : Option ℚ := none
  minHeight : Option ℚ := none
  maxHeight : Option ℚ := none
  percentWidth : Option ℚ := none
  percentHeight : Option ℚ := none
  flexGrow : Option ℚ := none
  flexShrink : Option ℚ := none
  flexBasis : Option BasisVal := none
  fitContent : Bool := false
  alignItems : Option String := none
  alignment : Option String := none
  alignSelf : Option String := none
  justifyContent : Option String := none
  top : Option ℚ := none
  right : Option ℚ := none
  bottom : Option ℚ := none
  left : Option ℚ := none
  anchorPoint : Option String := none
  selfAnchor : Option String := none
  anchorOffsetX : Option ℚ := none
  anchorOffsetY : Option ℚ := none
  deriving DecidableEq

/-- Mutable geometry of a host node: position and size. -/
structure Geom where
  x : ℚ
  y : ℚ
  w : ℚ
  h : ℚ
  deriving DecidableEq

/-- Per-side rational widths. -/
structure BoxSides where
  top : ℚ
  right : ℚ
  bottom : ℚ
  left : ℚ
  deriving DecidableEq

/-- Margin, padding and border widths of a node, per side. -/
structure BoxModel where
  margin : BoxSides
  padding : BoxSides
  border : BoxSides
  deriving DecidableEq

/-- The JavaScript nullish chain a ?? b ?? 0 used by getBoxModel. -/
def nullish2 (a b : Option ℚ) : ℚ :=
  match a with
  | some v => v
  | none => b.getD 0

/-- The JavaScript nullish chain a ?? b ?? c ?? 0 used for borders. -/
def nullish3 (a b c : Option ℚ) : ℚ :=
  match a with
  | some v => v
  | none => nullish2 b c

/-- getBoxModel: derive per-side margin, padding and border from the style,
side-specific value first, then the shorthand, then zero. -/
def getBoxModel (s : Style) : BoxModel :=
  { margin :=
      { top := nullish2 s.marginTop s.margin
        right := nullish2 s.marginRight s.margin
        bottom := nullish2 s.marginBottom s.margin
        left := nullish2 s.marginLeft s.margin }
    padding :=
      { top := nullish2 s.paddingTop s.padding
        right := nullish2 s.paddingRight s.padding
        bottom := nullish2 s.paddingBottom s.padding
        left := nullish2 s.paddingLeft s.padding }
    border :=
      { top := nullish3 s.borderTopWidth s.borderWidth s.border
        right := nullish3 s.borderRightWidth s.borderWidth s.border
        bottom := nullish3 s.borderBottomWidth s.borderWidth s.border
        left := nullish3 s.borderLeftWidth s.borderWidth s.border } }

/-- getOuterWidth: width plus horizontal margins. -/
def getOuterWidth (g : Geom) (s : Style) : ℚ :=
  let bm := getBoxModel s
  g.w + bm.margin.left + bm.margin.right

/-- getOuterHeight: height plus vertical margins. -/
def getOuterHeight (g : Geom) (s : Style) : ℚ :=
  let bm := getBoxModel s
  g.h + bm.margin.top + bm.margin.bottom

/-- A node of the host tree: geometry, computed style, visibility, the
doLayout attribute, and the ordered children. -/
inductive Node : Type where
  | mk (geom : Geom) (style : Style) (visible : Bool) (doLayout : Bool)
      (children : List Node) : Node

def Node.geom : Node → Geom
  | .mk g _ _ _ _ => g

def Node.style : Node → Style
  | .mk _ s _ _ _ => s

def Node.visible : Node → Bool
  | .mk _ _ v _ _ => v

def Node.doLayout : Node → Bool
  | .mk _ _ _ d _ => d

def Node.children : Node → List Node
  | .mk _ _ _ _ cs => cs

/-- Replace the geometry of a node, keeping everything else. -/
def Node.setGeom : Node → Geom → Node
  | .mk _ s v d cs, g => .mk g s v d cs

/-- Width of the content box of a parent: width minus horizontal padding and
border, as computed at every percentage-resolution site in the source. -/
def contentWidthOf (pg : Geom) (ps : Style) : ℚ :=
  let bm := getBoxModel ps
  pg.w - bm.padding.left - bm.padding.right - bm.border.left - bm.border.right

/-- Height of the content box of a parent: height minus vertical padding and
border. -/
def contentHeightOf (pg : Geom) (ps : Style) : ℚ :=
  let bm := getBoxModel ps
  pg.h - bm.padding.top - bm.padding.bottom - bm.border.top - bm.border.bottom

/-- hasPercentageSizing: percentWidth or percentHeight present, or width,
height or flexBasis given as a percentage string. -/
def hasPercentageSizing (s : Style) : Bool :=
  s.percentWidth.isSome || s.percentHeight.isSome ||
  (match s.width with | some (SizeVal.pct _) => true | _ => false) ||
  (match s.height with | some (SizeVal.pct _) => true | _ => false) ||
  (match s.flexBasis with | some (BasisVal.pct _) => true | _ => false)

/-- applyMinMaxConstraints: clamp width and height of an instance against the
min and max constraints of its style; for each axis the min test runs first
and the max test runs second, exactly as in the source. -/
def applyMinMaxConstraints (s : Style) (g : Geom) : Geom :=
  let w1 := match s.minWidth with
    | some mn => if g.w < mn then mn else g.w
    | none => g.w
  let w2 := match s.maxWidth with
    | some mx => if w1 > mx then mx else w1
    | none => w1
  let h1 := match s.minHeight with
    | some mn => if g.h < mn then mn else g.h
    | none => g.h
  let h2 := match s.maxHeight with
    | some mx => if h1 > mx then mx else h1
    | none => h1
  { g with w := w2, h := h2 }

/-- The width written by the percentage branch for a positive percent p. -/
def percentOfWidth (pg : Geom) (ps : Style) (p : ℚ) : ℚ :=
  contentWidthOf pg ps * p / 100

/-- The height written by the percentage branch for a positive percent p. -/
def percentOfHeight (pg : Geom) (ps : Style) (p : ℚ) : ℚ :=
  contentHeightOf pg ps * p / 100

/-- The percent value the source reads for the width axis: percentWidth if
present, else a percentage width string, else none. -/
def widthPercentValue (s : Style) : Option ℚ :=
  match s.percentWidth with
  | some p => some p
  | none =>
    match s.width with
    | some (SizeVal.pct p) => some p
    | _ => none

/-- The percent value the source reads for the height axis. -/
def heightPercentValue (s : Style) : Option ℚ :=
  match s.percentHeight with
  | some p => some p
  | none =>
    match s.height with
    | some (SizeVal.pct p) => some p
    | _ => none

/-- applyStylesToInstance: the geometry side effects of applying a computed
style to an instance, in source order: percentage width and height against the
parent content box (only when a parent exists and the percent is positive),
then a numeric non-zero flexBasis along the own display axis, then explicit
numeric width and height, then the min and max clamps (min via max, then max
via min, per axis). -/
def applyStylesToInstance (parentInfo : Option (Geom × Style)) (s : Style)
    (g : Geom) : Geom :=
  let g1 := match parentInfo with
    | none => g
    | some (pg, ps) =>
      let ga := match widthPercentValue s with
        | some p => if 0 < p then { g with w := percentOfWidth pg ps p } else g
        | none => g
      match heightPercentValue s with
      | some p => if 0 < p then { ga with h := percentOfHeight pg ps p } else ga
      | none => ga
  let isHorizontal := s.display == some "horizontal"
  let isVertical := s.display == some "vertical" || s.display == none
  let g2 := match parentInfo with
    | none => g1
    | some _ =>
      if isHorizontal || isVertical then
        match s.flexBasis with
        | some (BasisVal.num b) =>
          if b ≠ 0 then
            if isHorizontal then { g1 with w := b } else { g1 with h := b }
          else g1
        | _ => g1
      else g1
  let g3 := match s.width with
    | some (SizeVal.num n) => { g2 with w := n }
    | _ => g2
  let g4 := match s.height with
    | some (SizeVal.num n) => { g3 with h := n }
    | _ => g3
  let w1 := match s.minWidth with
    | some mn => max g4.w mn
    | none => g4.w
  let w2 := match s.maxWidth with
    | some mx => min w1 mx
    | none => w1
  let h1 := match s.minHeight with
    | some mn => max g4.h mn
    | none => g4.h
  let h2 := match s.maxHeight with
    | some mx => min h1 mx
    | none => h1
  { g4 with w := w2, h := h2 }

/-- applyPercentageSizing: re-resolve percentage width, height and flexBasis
against the parent content box (flexBasis along the own display axis), then
re-apply the min and max constraints.  A node without a parent is left
unchanged. -/
def applyPercentageSizing (parentInfo : Option (Geom × Style)) (s : Style)
    (g : Geom) : Geom :=
  match parentInfo with
  | none => g
  | some (pg, ps) =>
    let isHorizontal := s.display == some "horizontal"
    let isVertical := s.display == some "vertical" || s.display == none
    let g1 := match widthPercentValue s with
      | some p => if 0 < p then { g with w := percentOfWidth pg ps p } else g
      | none => g
    let g2 := match heightPercentValue s with
      | some p => if 0 < p then { g1 with h := percentOfHeight pg ps p } else g1
      | none => g1
    let g3 := match s.flexBasis with
      | some (BasisVal.pct p) =>
        if 0 < p then
          if isHorizontal then { g2 with w := percentOfWidth pg ps p }
          else if isVertical then { g2 with h := percentOfHeight pg ps p }
          else g2
        else g2
      | _ => g2
    applyMinMaxConstraints s g3

/-- The layout-relevant projection of a computed style with its defaults, as
produced by getLayoutProperties.  The grid column count and the tag-valued
anchorTarget are not modelled: no claim exercises grid layout or tag-based
anchor resolution. -/
structure LayoutProps where
  display : String
  position : String
  gap : ℚ
  padding : ℚ
  alignItems : String
  justifyContent : String
  fitContent : Bool
  top : Option ℚ
  right : Option ℚ
  bottom : Option ℚ
  left : Option ℚ
  anchorPoint : String
  selfAnchor : String
  anchorOffsetX : ℚ
  anchorOffsetY : ℚ
  deriving DecidableEq

/-- getLayoutProperties: read the layout options with their defaults. -/
def getLayoutProperties (s : Style) : LayoutProps :=
  { display := s.display.getD "vertical"
    position := s.position.getD "relative"
    gap := s.gap.getD 0
    padding := s.padding.getD 0
    alignItems :=
      match s.alignItems with
      | some a => a
      | none => s.alignment.getD "start"
    justifyContent := s.justifyContent.getD "start"
    fitContent := s.fitContent
    top := s.top
    right := s.right
    bottom := s.bottom
    left := s.left
    anchorPoint := s.anchorPoint.getD "center"
    selfAnchor := s.selfAnchor.getD "center"
    anchorOffsetX := s.anchorOffsetX.getD 0
    anchorOffsetY := s.anchorOffsetY.getD 0 }

/-- positionAbsolute: place an instance inside the content rectangle of its
parent using the top, right, bottom and left offsets; left wins over right and
top wins over bottom; missing offsets default to the content origin plus the
leading margin. -/
def positionAbsolute (pg : Geom) (ps : Style) (props : LayoutProps) (s : Style)
    (g : Geom) : Geom :=
  let pbm := getBoxModel ps
  let ibm := getBoxModel s
  let contentLeft := pg.x + pbm.padding.left + pbm.border.left
  let contentTop := pg.y + pbm.padding.top + pbm.border.top
  let contentRight := pg.x + pg.w - pbm.padding.right - pbm.border.right
  let contentBottom := pg.y + pg.h - pbm.padding.bottom - pbm.border.bottom
  let newX := match props.left with
    | some l => contentLeft + l + ibm.margin.left
    | none =>
      match props.right with
      | some r => contentRight - r - g.w - ibm.margin.right
      | none => contentLeft + ibm.margin.left
  let newY := match props.top with
    | some t => contentTop + t + ibm.margin.top
    | none =>
      match props.bottom with
      | some b => contentBottom - b - g.h - ibm.margin.bottom
      | none => contentTop + ibm.margin.top
  { g with x := newX, y := newY }

/-- getAnchorPoint with returnOffset true: the offset of a named anchor point
from the origin of a rectangle; unknown names default to the center. -/
def anchorOffsets (g : Geom) (anchor : String) : ℚ × ℚ :=
  if anchor = "top-left" then (0, 0)
  else if anchor = "top" ∨ anchor = "top-center" then (g.w / 2, 0)
  else if anchor = "top-right" then (g.w, 0)
  else if anchor = "left" ∨ anchor = "center-left" then (0, g.h / 2)
  else if anchor = "center" then (g.w / 2, g.h / 2)
  else if anchor = "right" ∨ anchor = "center-right" then (g.w, g.h / 2)
  else if anchor = "bottom-left" then (0, g.h)
  else if anchor = "bottom" ∨ anchor = "bottom-center" then (g.w / 2, g.h)
  else if anchor = "bottom-right" then (g.w, g.h)
  else (g.w / 2, g.h / 2)

/-- getAnchorPoint with returnOffset false: world coordinates of the anchor
point. -/
def getAnchorPointAbs (g : Geom) (anchor : String) : ℚ × ℚ :=
  let o := anchorOffsets g anchor
  (g.x + o.1, g.y + o.2)

/-- positionAnchor for a resolved target: translate the instance so that its
selfAnchor point lands on the anchorPoint of the target plus the user
offsets. -/
def positionAnchor (target : Geom) (props : LayoutProps) (g : Geom) : Geom :=
  let tp := getAnchorPointAbs target props.anchorPoint
  let so := anchorOffsets g props.selfAnchor
  let ox := tp.1 - (g.x + so.1) + props.anchorOffsetX
  let oy := tp.2 - (g.y + so.2) + props.anchorOffsetY
  { g with x := g.x + ox, y := g.y + oy }

/-- A work record for one child of a flow layouter, as collected in the first
pass of layoutVertical and layoutHorizontal.  The shrink factor is an Option:
none models the NaN produced by parseFloat on an undeclared flexShrink.  The
node is kept so the updated child list can be rebuilt; base and target are the
main-axis sizes; minC and maxC are the main-axis constraints. -/
structure FlexItem where
  node : Node
  bm : BoxModel
  grow : ℚ
  shrinkOpt : Option ℚ
  base : ℚ
  minC : Option ℚ
  maxC : Option ℚ
  isFlex : Bool
  constrained : Bool
  target : ℚ

/-- Whether a child is a flex item: flexGrow greater than zero, or a declared
flexShrink greater than zero.  An undeclared flexShrink is NaN in the source
and NaN compares false, so it never makes a child flex. -/
def isFlexStyle (s : Style) : Bool :=
  decide (0 < s.flexGrow.getD 0) ||
  (match s.flexShrink with
   | some v => decide (0 < v)
   | none => false)

/-- The base main-axis size of a child for the vertical layouter: a numeric
flexBasis if one is declared, otherwise the current height (the auto keyword
and percentage strings keep the current height). -/
def baseHeightOf (c : Node) : ℚ :=
  match c.style.flexBasis with
  | some (BasisVal.num b) => b
  | _ => c.geom.h

/-- The base main-axis size of a child for the horizontal layouter. -/
def baseWidthOf (c : Node) : ℚ :=
  match c.style.flexBasis with
  | some (BasisVal.num b) => b
  | _ => c.geom.w

/-- Build the work record of one child for layoutVertical.  The target is
initialized to the base size, as in the source. -/
def mkItemV (c : Node) : FlexItem :=
  { node := c
    bm := getBoxModel c.style
    grow := c.style.flexGrow.getD 0
    shrinkOpt := c.style.flexShrink
    base := baseHeightOf c
    minC := c.style.minHeight
    maxC := c.style.maxHeight
    isFlex := isFlexStyle c.style
    constrained := false
    target := baseHeightOf c }

/-- Build the work record of one child for layoutHorizontal. -/
def mkItemH (c : Node) : FlexItem :=
  { node := c
    bm := getBoxModel c.style
    grow := c.style.flexGrow.getD 0
    shrinkOpt := c.style.flexShrink
    base := baseWidthOf c
    minC := c.style.minWidth
    maxC := c.style.maxWidth
    isFlex := isFlexStyle c.style
    constrained := false
    target := baseWidthOf c }

/-- The constraint check inside the flex-grow pass: clamp a tentative target
against the min constraint first and the max constraint second, and report
whether any constraint fired. -/
def growClampSize (minC maxC : Option ℚ) (t : ℚ) : ℚ × Bool :=
  let p1 := match minC with
    | some mn => if t < mn then (mn, true) else (t, false)
    | none => (t, false)
  match maxC with
  | some mx => if p1.1 > mx then (mx, true) else p1
  | none => p1

/-- State threaded through one flex-grow distribution pass: the remaining sum
of grow factors, the space consumed so far in this pass, and whether any item
was still able to flex. -/
structure GrowState where
  remGrow : ℚ
  consumed : ℚ
  flexing : Bool

/-- One item step of a flex-grow pass: skip constrained items and items with
no positive grow factor; otherwise hand the item its proportional share of the
remaining space, clamp it, account for the space actually used, and retire the
item from the active set if a constraint fired.  The remaining grow sum is
updated immediately, affecting later items of the same pass, exactly as in the
source. -/
def growStep (remSpace : ℚ) (st : GrowState) (it : FlexItem) :
    GrowState × FlexItem :=
  if it.isFlex && !it.constrained && decide (0 < it.grow) then
    let extra := it.grow / st.remGrow * remSpace
    let cl := growClampSize it.minC it.maxC (it.target + extra)
    let actual := cl.1 - it.target
    ({ remGrow := if cl.2 then st.remGrow - it.grow else st.remGrow
       consumed := st.consumed + actual
       flexing := st.flexing || !cl.2 },
     { it with target := cl.1, constrained := it.constrained || cl.2 })
  else (st, it)

/-- One full flex-grow pass over the item list, threading the state. -/
def growPassGo (remSpace : ℚ) (st : GrowState) :
    List FlexItem → GrowState × List FlexItem
  | [] => (st, [])
  | it :: rest =>
    let r1 := growStep remSpace st it
    let r2 := growPassGo remSpace r1.1 rest
    (r2.1, r1.2 :: r2.2)

/-- The iterative flex-grow loop: repeat passes while more than 0.1 units of
space remain, some grow factor remains and the previous pass still flexed;
stop early when a pass consumes less than 0.01 units.  The source while loop
terminates because every continuing pass either retires an item or consumes
the full remaining share; the fuel argument makes that bound explicit. -/
def growLoop : Nat → ℚ → ℚ → Bool → List FlexItem → List FlexItem
  | 0, _, _, _, items => items
  | Nat.succ fuel, remSpace, remGrow, flexing, items =>
    if 1 / 10 < remSpace ∧ 0 < remGrow ∧ flexing = true then
      let r := growPassGo remSpace
        { remGrow := remGrow, consumed := 0, flexing := false } items
      if r.1.consumed < 1 / 100 then r.2
      else growLoop fuel (remSpace - r.1.consumed) r.1.remGrow r.1.flexing r.2
    else items

/-- One item of the single-pass flex-shrink distribution: items with a
positive declared shrink factor lose a share proportional to shrink times
base, floored at zero, then raised to the min constraint if one is declared;
items with shrink NaN (undeclared) or not positive keep their base size;
non-flex items are untouched. -/
def shrinkStep (availMag tsf : ℚ) (it : FlexItem) : FlexItem :=
  if it.isFlex then
    match it.shrinkOpt with
    | some sh =>
      if 0 < sh then
        let frac := sh * it.base / tsf
        let red := availMag * frac
        let t0 := max 0 (it.base - red)
        let t1 := match it.minC with
          | some mn => if t0 < mn then mn else t0
          | none => t0
        { it with target := t1 }
      else { it with target := it.base }
    | none => { it with target := it.base }
  else it

/-- Sum of shrink times base over the flex items, with NaN propagation: if any
flex item has an undeclared (NaN) shrink factor the whole sum is NaN, modelled
as none.  The source guard NaN greater than zero is then false. -/
def totalShrinkFactors (items : List FlexItem) : Option ℚ :=
  items.foldl
    (fun a it =>
      if it.isFlex then
        match a, it.shrinkOpt with
        | some acc, some sh => some (acc + sh * it.base)
        | _, _ => none
      else a)
    (some 0)

/-- The source guard x greater than zero applied to a possibly-NaN value. -/
def optPos (o : Option ℚ) : Bool :=
  match o with
  | some v => decide (0 < v)
  | none => false

/-- Place one child vertically at the running cursor and align it
horizontally per alignSelf falling back to the container alignment; returns
the updated child and the cursor advanced past the child and its bottom
margin. -/
def placeChildV (cg : Geom) (bm : BoxModel) (contentW : ℚ) (alignment : String)
    (curY : ℚ) (c : Node) : Node × ℚ :=
  let cbm := getBoxModel c.style
  let y1 := curY + cbm.margin.top
  let newY := cg.y + y1
  let alignSelf := c.style.alignSelf.getD alignment
  let newX :=
    if alignSelf = "center" then
      cg.x + bm.padding.left + bm.border.left +
        (contentW - (c.geom.w + cbm.margin.left + cbm.margin.right)) / 2 +
        cbm.margin.left
    else if alignSelf = "end" then
      cg.x + cg.w - bm.padding.right - bm.border.right - c.geom.w -
        cbm.margin.right
    else
      cg.x + bm.padding.left + bm.border.left + cbm.margin.left
  (c.setGeom { c.geom with x := newX, y := newY },
   y1 + c.geom.h + cbm.margin.bottom)

/-- The vertical positioning loop: between consecutive children advance by the
gap plus the justify-content spacing. -/
def placeListV (cg : Geom) (bm : BoxModel) (contentW : ℚ) (alignment : String)
    (gap spaceBetween spaceAround : ℚ) (justify : String) :
    ℚ → List Node → List Node
  | _, [] => []
  | curY, c :: rest =>
    let r := placeChildV cg bm contentW alignment curY c
    let curY2 :=
      if rest.isEmpty then r.2
      else r.2 + gap + spaceBetween +
        (if justify = "space-around" then spaceAround else 0)
    r.1 :: placeListV cg bm contentW alignment gap spaceBetween spaceAround
      justify curY2 rest

/-- Place one child horizontally at the running cursor and align it vertically
per alignSelf falling back to the container alignment. -/
def placeChildH (cg : Geom) (bm : BoxModel) (contentH : ℚ) (alignment : String)
    (curX : ℚ) (c : Node) : Node × ℚ :=
  let cbm := getBoxModel c.style
  let x1 := curX + cbm.margin.left
  let newX := cg.x + x1
  let alignSelf := c.style.alignSelf.getD alignment
  let newY :=
    if alignSelf = "center" then
      cg.y + bm.padding.top + bm.border.top +
        (contentH - (c.geom.h + cbm.margin.top + cbm.margin.bottom)) / 2 +
        cbm.margin.top
    else if alignSelf = "end" then
      cg.y + cg.h - bm.padding.bottom - bm.border.bottom - c.geom.h -
        cbm.margin.bottom
    else
      cg.y + bm.padding.top + bm.border.top + cbm.margin.top
  (c.setGeom { c.geom with x := newX, y := newY },
   x1 + c.geom.w + cbm.margin.right)

/-- The horizontal positioning loop. -/
def placeListH (cg : Geom) (bm : BoxModel) (contentH : ℚ) (alignment : String)
    (gap spaceBetween spaceAround : ℚ) (justify : String) :
    ℚ → List Node → List Node
  | _, [] => []
  | curX, c :: rest =>
    let r := placeChildH cg bm contentH alignment curX c
    let curX2 :=
      if rest.isEmpty then r.2
      else r.2 + gap + spaceBetween +
        (if justify = "space-around" then spaceAround else 0)
    r.1 :: placeListH cg bm contentH alignment gap spaceBetween spaceAround
      justify curX2 rest

/-- The justify-content start offset shared by both flow layouters. -/
def justifyStartOffset (justify : String) (remaining : ℚ) : ℚ :=
  if justify = "center" then remaining / 2
  else if justify = "end" then remaining
  else 0

/-- The space-between increment shared by both flow layouters. -/
def justifySpaceBetween (justify : String) (remaining : ℚ) (n : Nat) : ℚ :=
  if justify = "space-between" then
    (if 1 < n then remaining / ((n : ℚ) - 1) else 0)
  else 0

/-- The space-around increment shared by both flow layouters. -/
def justifySpaceAround (justify : String) (remaining : ℚ) (n : Nat) : ℚ :=
  if justify = "space-around" then
    (if 0 < n then remaining / (n : ℚ) else 0)
  else 0

/-- layoutVertical: the full vertical flow layouter of the source.  Classify
children into fixed and flex items, compute the distributable space, run the
iterative grow loop or the single shrink pass, write the resulting heights to
the flex items, then position every child with justify-content and
align-items. -/
def layoutVertical (cg : Geom) (props : LayoutProps) (cstyle : Style)
    (children : List Node) : List Node :=
  let bm := getBoxModel cstyle
  let gap := props.gap
  let alignment := props.alignItems
  let contentHeight := contentHeightOf cg cstyle
  let contentWidth := contentWidthOf cg cstyle
  let items0 := children.map mkItemV
  let totalFixedHeight := items0.foldl
    (fun a it =>
      if it.isFlex then a
      else a + it.node.geom.h + it.bm.margin.top + it.bm.margin.bottom) 0
  let totalFlexGrow := items0.foldl
    (fun a it => if it.isFlex then a + it.grow else a) 0
  let tsfOpt := totalShrinkFactors items0
  let n := children.length
  let totalGaps := if 1 < n then ((n : ℚ) - 1) * gap else 0
  let availableSpace0 := contentHeight - totalFixedHeight - totalGaps
  let totalAvailableHeight := contentHeight - totalGaps
  let initialFlexHeight := items0.foldl
    (fun a it =>
      if it.isFlex then a + it.base + it.bm.margin.top + it.bm.margin.bottom
      else a) 0
  let availableSpace :=
    if totalAvailableHeight < initialFlexHeight + totalFixedHeight then
      totalAvailableHeight - totalFixedHeight - initialFlexHeight
    else
      min availableSpace0
        (totalAvailableHeight - totalFixedHeight - initialFlexHeight)
  let items1 :=
    if 0 < availableSpace ∧ 0 < totalFlexGrow then
      growLoop (n + 2) availableSpace totalFlexGrow true items0
    else if availableSpace < 0 ∧ optPos tsfOpt = true then
      items0.map (shrinkStep |availableSpace| (tsfOpt.getD 0))
    else items0
  let sized := items1.map
    (fun it =>
      if it.isFlex then it.node.setGeom { it.node.geom with h := it.target }
      else it.node)
  let justify := props.justifyContent
  let actualTotalHeight := sized.foldl
    (fun a c =>
      let cbm := getBoxModel c.style
      a + c.geom.h + cbm.margin.top + cbm.margin.bottom) 0 + totalGaps
  let remaining := max 0 (contentHeight - actualTotalHeight)
  let startOffset := justifyStartOffset justify remaining
  let spaceBetween := justifySpaceBetween justify remaining n
  let spaceAround := justifySpaceAround justify remaining n
  let startY := bm.padding.top + bm.border.top + startOffset +
    (if justify = "space-around" ∧ 0 < n then spaceAround / 2 else 0)
  placeListV cg bm contentWidth alignment gap spaceBetween spaceAround justify
    startY sized

/-- layoutHorizontal: the horizontal flow layouter; the mirror of
layoutVertical with the one source difference that the initial available
space already subtracts the initial flex width. -/
def layoutHorizontal (cg : Geom) (props : LayoutProps) (cstyle : Style)
    (children : List Node) : List Node :=
  let bm := getBoxModel cstyle
  let gap := props.gap
  let alignment := props.alignItems
  let contentWidth := contentWidthOf cg cstyle
  let contentHeight := contentHeightOf cg cstyle
  let items0 := children.map mkItemH
  let totalFixedWidth := items0.foldl
    (fun a it =>
      if it.isFlex then a
      else a + it.node.geom.w + it.bm.margin.left + it.bm.margin.right) 0
  let totalFlexGrow := items0.foldl
    (fun a it => if it.isFlex then a + it.grow else a) 0
  let tsfOpt := totalShrinkFactors items0
  let n := children.length
  let totalGaps := if 1 < n then ((n : ℚ) - 1) * gap else 0
  let totalAvailableWidth := contentWidth - totalGaps
  let initialFlexWidth := items0.foldl
    (fun a it =>
      if it.isFlex then a + it.base + it.bm.margin.left + it.bm.margin.right
      else a) 0
  let availableSpace0 :=
    contentWidth - totalFixedWidth - initialFlexWidth - totalGaps
  let availableSpace :=
    if totalAvailableWidth < initialFlexWidth + totalFixedWidth then
      totalAvailableWidth - totalFixedWidth - initialFlexWidth
    else
      min availableSpace0
        (totalAvailableWidth - totalFixedWidth - initialFlexWidth)
  let items1 :=
    if 0 < availableSpace ∧ 0 < totalFlexGrow then
      growLoop (n + 2) availableSpace totalFlexGrow true items0
    else if availableSpace < 0 ∧ optPos tsfOpt = true then
      items0.map (shrinkStep |availableSpace| (tsfOpt.getD 0))
    else items0
  let sized := items1.map
    (fun it =>
      if it.isFlex then it.node.setGeom { it.node.geom with w := it.target }
      else it.node)
  let justify := props.justifyContent
  let actualTotalWidth := sized.foldl
    (fun a c =>
      let cbm := getBoxModel c.style
      a + c.geom.w + cbm.margin.left + cbm.margin.right) 0 + totalGaps
  let remaining := max 0 (contentWidth - actualTotalWidth)
  let startOffset := justifyStartOffset justify remaining
  let spaceBetween := justifySpaceBetween justify remaining n
  let spaceAround := justifySpaceAround justify remaining n
  let startX := bm.padding.left + bm.border.left + startOffset +
    (if justify = "space-around" ∧ 0 < n then spaceAround / 2 else 0)
  placeListH cg bm contentHeight alignment gap spaceBetween spaceAround justify
    startX sized

/-- A child participates in layout when it is visible and its doLayout
attribute is not the value false. -/
def includedInLayout (c : Node) : Bool := c.visible && c.doLayout

/-- A child is out of flow when its computed position is absolute or anchor. -/
def isOutOfFlowNode (c : Node) : Bool :=
  c.style.position == some "absolute" || c.style.position == some "anchor"

/-- getLayoutChildren: the visible, layout-enabled, in-flow children.  The
source also sorts by a layoutOrder scratch field that is never written, so the
sort is the identity and is not modelled. -/
def getLayoutChildren (children : List Node) : List Node :=
  children.filter (fun c => includedInLayout c && !isOutOfFlowNode c)

/-- applyFitContentSizing for the vertical and horizontal display modes:
resize the container to hug the outer boxes of its layout children.  The grid
branch is not modelled: no claim exercises grid layout. -/
def applyFitContentSizing (g : Geom) (s : Style) (props : LayoutProps)
    (allChildren : List Node) : Geom :=
  let children := getLayoutChildren allChildren
  let bm := getBoxModel s
  let n := children.length
  let gaps := if 1 < n then ((n : ℚ) - 1) * props.gap else 0
  if props.display = "vertical" then
    let totalH := children.foldl
      (fun a c => a + getOuterHeight c.geom c.style)
      (bm.padding.top + bm.padding.bottom) + gaps
    let maxW := children.foldl (fun a c => max a (getOuterWidth c.geom c.style)) 0
    { g with
      h := totalH + bm.border.top + bm.border.bottom
      w := maxW + bm.padding.left + bm.padding.right + bm.border.left +
        bm.border.right }
  else if props.display = "horizontal" then
    let totalW := children.foldl
      (fun a c => a + getOuterWidth c.geom c.style)
      (bm.padding.left + bm.padding.right) + gaps
    let maxH := children.foldl (fun a c => max a (getOuterHeight c.geom c.style)) 0
    { g with
      w := totalW + bm.border.left + bm.border.right
      h := maxH + bm.padding.top + bm.padding.bottom + bm.border.top +
        bm.border.bottom }
  else g

/-- hasFlexChildren, one child: the JavaScript test flexGrow truthy and
positive, or flexShrink not undefined, or flexBasis truthy and different from
the auto keyword.  A numeric flexBasis of zero is falsy and fails the test. -/
def hasFlexEntry (s : Style) : Bool :=
  (match s.flexGrow with
   | some q => decide (0 < q)
   | none => false) ||
  s.flexShrink.isSome ||
  (match s.flexBasis with
   | some (BasisVal.num q) => decide (q ≠ 0)
   | some BasisVal.auto => false
   | some (BasisVal.pct _) => true
   | none => false)

/-- hasFlexChildren: whether any child passes the flex-property test. -/
def hasFlexChildren (cs : List Node) : Bool :=
  cs.any (fun c => hasFlexEntry c.style)

/-- applyNormalFlowLayout: dispatch on the display mode.  Grid is not
modelled; a grid container leaves its children unchanged here and no claim
depends on grid. -/
def applyNormalFlowLayout (g : Geom) (props : LayoutProps) (s : Style)
    (children : List Node) : List Node :=
  if props.display = "vertical" then layoutVertical g props s children
  else if props.display = "horizontal" then layoutHorizontal g props s children
  else children

/-- Splice an updated in-flow child list back into the full child list,
preserving the positions of skipped and out-of-flow children.  This models the
in-place mutation of the shared child objects in the source. -/
def reinsertInFlow : List Node → List Node → List Node
  | [], _ => []
  | c :: rest, updated =>
    if includedInLayout c && !isOutOfFlowNode c then
      match updated with
      | u :: us => u :: reinsertInFlow rest us
      | [] => c :: reinsertInFlow rest []
    else c :: reinsertInFlow rest updated

/-- applyOutOfFlowLayout for one child: absolute children are placed in the
parent content rectangle; anchor children are pinned to their target.  Only
the default target (the parent) is modelled; tag-based anchor-target search
walks the host object directory and is outside this embedding, as is the
no-parent no-op, because the tree driver always supplies the parent here. -/
def applyOutOfFlowLayoutNode (pg : Geom) (ps : Style) (c : Node) : Node :=
  let props := getLayoutProperties c.style
  if props.position = "absolute" then
    c.setGeom (positionAbsolute pg ps props c.style c.geom)
  else if props.position = "anchor" then
    c.setGeom (positionAnchor pg props c.geom)
  else c

/-- The condition of step 5 of the tree driver: the display property is
truthy (it defaults to vertical, so it always is unless declared as the empty
string) and the position is neither absolute nor anchor. -/
def flowLayoutAllowed (props : LayoutProps) : Prop :=
  props.display ≠ "" ∧ props.position ≠ "absolute" ∧ props.position ≠ "anchor"

instance (props : LayoutProps) : Decidable (flowLayoutAllowed props) :=
  inferInstanceAs (Decidable (_ ∧ _ ∧ _))

/-- processInstance: one layout pass of the engine over a node, given the
geometry and style of its parent (none at the root).  Phases in source order:
apply styles, force the root position to relative, partition the children,
recurse into the in-flow children, run the flow layout, apply fit-content
sizing with the percentage re-resolution or the flex re-layout, then process
and place the out-of-flow children against the final container geometry.  The
fuel argument bounds the recursion depth of the embedding; any fuel at least
the tree height gives the source behavior. -/
def processInstance : Nat → Option (Geom × Style) → Node → Node
  | 0, _, n => n
  | Nat.succ fuel, parentInfo, n =>
    let s := n.style
    let g1 := applyStylesToInstance parentInfo s n.geom
    let props0 := getLayoutProperties s
    let props :=
      if parentInfo.isNone then { props0 with position := "relative" }
      else props0
    let inFlowP := fun c => includedInLayout c && !isOutOfFlowNode c
    let outFlowP := fun c => includedInLayout c && isOutOfFlowNode c
    let pctP := fun c => includedInLayout c && hasPercentageSizing c.style
    let cs1 := n.children.map
      (fun c => if inFlowP c then processInstance fuel (some (g1, s)) c else c)
    let cs2 :=
      if flowLayoutAllowed props then
        reinsertInFlow cs1 (applyNormalFlowLayout g1 props s (cs1.filter inFlowP))
      else cs1
    let res :=
      if props.fitContent then
        let g2 := applyFitContentSizing g1 s props cs2
        if (cs2.filter pctP).length ≠ 0 then
          let cs3 := cs2.map
            (fun c =>
              if pctP c then
                c.setGeom (applyPercentageSizing (some (g2, s)) c.style c.geom)
              else c)
          let cs4 :=
            if flowLayoutAllowed props then
              reinsertInFlow cs3
                (applyNormalFlowLayout g2 props s (cs3.filter inFlowP))
            else cs3
          (g2, cs4)
        else if flowLayoutAllowed props ∧ hasFlexChildren (cs2.filter inFlowP) then
          (g2, reinsertInFlow cs2
            (applyNormalFlowLayout g2 props s (cs2.filter inFlowP)))
        else (g2, cs2)
      else (g1, cs2)
    let cs5 := res.2.map
      (fun c =>
        if outFlowP c then
          applyOutOfFlowLayoutNode res.1 s (processInstance fuel (some (res.1, s)) c)
        else c)
    Node.mk res.1 s n.visible n.doLayout cs5

/-- The layout effects of the step-by-step debug generator.  It mirrors
processInstance with two source differences: the root position is NOT forced
to relative (the generator reads getLayoutProperties and never overrides
position), and after fit-content there is no flex-children re-layout branch
(the generator only re-applies percentage sizing). -/
def processInstanceDebug : Nat → Option (Geom × Style) → Node → Node
  | 0, _, n => n
  | Nat.succ fuel, parentInfo, n =>
    let s := n.style
    let g1 := applyStylesToInstance parentInfo s n.geom
    let props := getLayoutProperties s
    let inFlowP := fun c => includedInLayout c && !isOutOfFlowNode c
    let outFlowP := fun c => includedInLayout c && isOutOfFlowNode c
    let pctP := fun c => includedInLayout c && hasPercentageSizing c.style
    let cs1 := n.children.map
      (fun c =>
        if inFlowP c then processInstanceDebug fuel (some (g1, s)) c else c)
    let cs2 :=
      if flowLayoutAllowed props then
        reinsertInFlow cs1 (applyNormalFlowLayout g1 props s (cs1.filter inFlowP))
      else cs1
    let res :=
      if props.fitContent then
        let g2 := applyFitContentSizing g1 s props cs2
        if (cs2.filter pctP).length ≠ 0 then
          let cs3 := cs2.map
            (fun c =>
              if pctP c then
                c.setGeom (applyPercentageSizing (some (g2, s)) c.style c.geom)
              else c)
          let cs4 :=
            if flowLayoutAllowed props then
              reinsertInFlow cs3
                (applyNormalFlowLayout g2 props s (cs3.filter inFlowP))
            else cs3
          (g2, cs4)
        else (g2, cs2)
      else (g1, cs2)
    let cs5 := res.2.map
      (fun c =>
        if outFlowP c then
          applyOutOfFlowLayoutNode res.1 s
            (processInstanceDebug fuel (some (res.1, s)) c)
        else c)
    Node.mk res.1 s n.visible n.doLayout cs5

/-- UILayoutDebug.processInstance: when debug mode is armed the override
returns immediately and performs no layout work; otherwise it delegates to
the normal engine pass. -/
def debugProcessInstance (debugMode : Bool) (fuel : Nat) (n : Node) : Node :=
  if debugMode then n else processInstance fuel none n

/-- A parsed style value for the cascade model: a number or a string. -/
inductive Val : Type where
  | num (q : ℚ)
  | str (s : String)
  deriving DecidableEq

/-- The output of parseStyle: the property map in insertion order together
with the list of property names flagged important. -/
structure ParsedStyle where
  computedStyle : List (String × Val)
  importantProperties : List String
  deriving DecidableEq

/-- JavaScript object assignment on the property map: overwrite an existing
key in place, else append. -/
def setProp : List (String × Val) → String → Val → List (String × Val)
  | [], k, v => [(k, v)]
  | e :: rest, k, v =>
    if e.1 = k then (e.1, v) :: rest else e :: setProp rest k v

/-- Property lookup on the final style map. -/
def lookupProp : List (String × Val) → String → Option Val
  | [], _ => none
  | e :: rest, p => if e.1 = p then some e.2 else lookupProp rest p

/-- The mutable state of mergeStyles: the final style object and the set of
properties already applied with the important flag. -/
structure MergeState where
  finalStyle : List (String × Val)
  appliedImportant : List String

/-- One property write of the cascade, with its importance flag. -/
structure StyleWrite where
  key : String
  value : Val
  important : Bool

/-- One write step of mergeStyles: apply the property unless it was already
applied as important and the incoming write is not important; a winning
important write records the property as applied important. -/
def applyWrite (st : MergeState) (w : StyleWrite) : MergeState :=
  if !st.appliedImportant.contains w.key || w.important then
    { finalStyle := setProp st.finalStyle w.key w.value
      appliedImportant :=
        if w.important then w.key :: st.appliedImportant
        else st.appliedImportant }
  else st

/-- The write a style object entry produces, with its importance flag read
from the importantProperties list of that object. -/
def writeOf (imp : List String) (e : String × Val) : StyleWrite :=
  { key := e.1, value := e.2, important := imp.contains e.1 }

/-- mergeStyles: fold the ordered style objects, entry by entry in insertion
order, through the write rule above; the result is the final style map. -/
def mergeStyles (objs : List ParsedStyle) : List (String × Val) :=
  (objs.foldl
    (fun (st : MergeState) (obj : ParsedStyle) =>
      obj.computedStyle.foldl
        (fun st2 e => applyWrite st2 (writeOf obj.importantProperties e)) st)
    { finalStyle := [], appliedImportant := [] }).finalStyle

/-- Spec-side definition, modelled from the words of the specification: the
flat ordered sequence of writes the cascade performs, classes first and in
list order, each with its importance flag. -/
def cascadeWrites (objs : List ParsedStyle) : List StyleWrite :=
  (objs.map (fun o => o.computedStyle.map (writeOf o.importantProperties))).flatten

/-- Spec-side definition: the value of the last write of a property in a
write sequence, if any. -/
def lastWriteVal (ws : List StyleWrite) (p : String) : Option Val :=
  ws.foldl (fun acc w => if w.key = p then some w.value else acc) none

/-- Spec-side definition: the value of the last important write of a property
in a write sequence, if any. -/
def lastImportantVal (ws : List StyleWrite) (p : String) : Option Val :=
  ws.foldl
    (fun acc w => if w.key = p ∧ w.important = true then some w.value else acc)
    none

/-- Left-biased choice on optional values, used to state the cascade rule:
the last important write wins, otherwise the last write wins. -/
def specOr (a b : Option Val) : Option Val :=
  match a with
  | some v => some v
  | none => b

/-- applyWrite folded over a write sequence. -/
def applyWrites (st : MergeState) (ws : List StyleWrite) : MergeState :=
  ws.foldl applyWrite st

/-! Concrete scenario inputs used by the theorems below. -/

/-- The child style of the vertical fit-content scenario: explicit width 200,
height 80, margin 5. -/
def vfcChildStyle : Style :=
  { width := some (SizeVal.num 200), height := some (SizeVal.num 80),
    margin := some 5 }

/-- The root style of the vertical fit-content scenario. -/
def vfcRootStyle : Style :=
  { display := some "vertical", padding := some 20, gap := some 10,
    fitContent := true, border := some 2 }

/-- A child of the vertical fit-content scenario with arbitrary initial
geometry. -/
def vfcChild (g : Geom) : Node := Node.mk g vfcChildStyle true true []

/-- The root of the vertical fit-content scenario at position 100 100 with
arbitrary initial size and arbitrary initial child geometries. -/
def vfcRoot (w h : ℚ) (g1 g2 g3 : Geom) : Node :=
  Node.mk { x := 100, y := 100, w := w, h := h } vfcRootStyle true true
    [vfcChild g1, vfcChild g2, vfcChild g3]

/-- The container style of the flex-grow scenario. -/
def growContainerStyle : Style :=
  { display := some "horizontal", padding := some 0, gap := some 0 }

/-- A flex-grow scenario child: initial width 0, the given grow factor. -/
def growChild (gr : ℚ) : Node :=
  Node.mk { x := 0, y := 0, w := 0, h := 40 } { flexGrow := some gr } true true []

/-- The parent style of the absolute-corner scenario: padding 15, border 2. -/
def absParentStyle : Style := { padding := some 15, border := some 2 }

/-- The child style of the absolute-corner scenario. -/
def absChildStyle : Style :=
  { position := some "absolute", right := some 10, bottom := some 10,
    width := some (SizeVal.num 50), height := some (SizeVal.num 50) }

/-- A parentless root whose style declares position absolute, with one plain
in-flow child sitting at 50 50. -/
def absRoot : Node :=
  Node.mk { x := 0, y := 0, w := 100, h := 100 }
    { position := some "absolute" } true true
    [Node.mk { x := 50, y := 50, w := 10, h := 10 } {} true true []]

/-! Helper lemmas. -/

theorem applyMinMax_w_conflict (s : Style) (mn mx : ℚ) (g : Geom)
    (hmn : s.minWidth = some mn) (hmx : s.maxWidth = some mx) (h : mx < mn) :
    (applyMinMaxConstraints s g).w = mx := by
  simp only [applyMinMaxConstraints, hmn, hmx]
  split_ifs with h1 h2 <;> simp_all <;> linarith

theorem applyMinMax_h_conflict (s : Style) (mn mx : ℚ) (g : Geom)
    (hmn : s.minHeight = some mn) (hmx : s.maxHeight = some mx) (h : mx < mn) :
    (applyMinMaxConstraints s g).h = mx := by
  simp only [applyMinMaxConstraints, hmn, hmx]
  split_ifs with h1 h2 <;> simp_all <;> linarith

/-! Claim theorems. -/

/-- Claim C1, counterexample: with minWidth 100 and maxWidth 50 and a width of
70, the clamp of applyMinMaxConstraints yields 50, the max value, not the min
value 100 the claim requires. -/
theorem minmax_conflict_counterexample :
    ¬ (applyMinMaxConstraints
        { minWidth := some 100, maxWidth := some 50 }
        { x := 0, y := 0, w := 70, h := 70 }).w = 100 := by
  norm_num [applyMinMaxConstraints]

/-- Claim C1, amended: when a style declares min greater than max on an axis,
the max value wins at every clamp site, because each site tests the min bound
first and the max bound second: the standalone constraint clamp (both axes),
the clamp at the end of explicit sizing in applyStylesToInstance (both axes),
the clamp at the end of percentage sizing, and the per-pass clamp of the
flex-grow loop. -/
theorem minmax_conflict_max_wins (mn mx v t p : ℚ) (g pg : Geom) (ps : Style)
    (h : mx < mn) :
    (applyMinMaxConstraints { minWidth := some mn, maxWidth := some mx } g).w
        = mx
    ∧ (applyMinMaxConstraints
        { minHeight := some mn, maxHeight := some mx } g).h = mx
    ∧ (applyStylesToInstance none
        { width := some (SizeVal.num v), minWidth := some mn,
          maxWidth := some mx } g).w = mx
    ∧ (applyStylesToInstance none
        { height := some (SizeVal.num v), minHeight := some mn,
          maxHeight := some mx } g).h = mx
    ∧ (applyPercentageSizing (some (pg, ps))
        { percentWidth := some p, minWidth := some mn,
          maxWidth := some mx } g).w = mx
    ∧ (growClampSize (some mn) (some mx) t).1 = mx := by
  refine ⟨applyMinMax_w_conflict _ mn mx _ rfl rfl h,
    applyMinMax_h_conflict _ mn mx _ rfl rfl h, ?_, ?_, ?_, ?_⟩
  · simp only [applyStylesToInstance]
    have hle : mx ≤ max v mn := le_trans h.le (le_max_right v mn)
    simpa using min_eq_right hle
  · simp only [applyStylesToInstance]
    have hle : mx ≤ max v mn := le_trans h.le (le_max_right v mn)
    simpa using min_eq_right hle
  · simp only [applyPercentageSizing]
    exact applyMinMax_w_conflict _ mn mx _ rfl rfl h
  · simp only [growClampSize]
    split_ifs with h1 h2 <;> simp_all <;> linarith

/-- Claim C1, witness for the amended theorem at min 100, max 50. -/
theorem minmax_conflict_max_wins_witness :
    (50 : ℚ) < 100
    ∧ (applyMinMaxConstraints { minWidth := some 100, maxWidth := some 50 }
        { x := 0, y := 0, w := 70, h := 70 }).w = 50 := by
  refine ⟨by norm_num, ?_⟩
  exact (minmax_conflict_max_wins 100 50 70 60 30
    { x := 0, y := 0, w := 70, h := 70 } { x := 0, y := 0, w := 300, h := 300 }
    {} (by norm_num)).1

/-- Claim C4, counterexample: the absolute-corner scenario places the child at
423 323, not at 438 338; the claim arithmetic forgot the parent padding of 15
that the content rectangle subtracts on each side. -/
theorem absolute_corner_counterexample :
    ¬ ((positionAbsolute { x := 0, y := 0, w := 500, h := 400 } absParentStyle
          (getLayoutProperties absChildStyle) absChildStyle
          { x := 0, y := 0, w := 50, h := 50 }).x = 438
        ∧ (positionAbsolute { x := 0, y := 0, w := 500, h := 400 }
          absParentStyle (getLayoutProperties absChildStyle) absChildStyle
          { x := 0, y := 0, w := 50, h := 50 }).y = 338) := by
  simp [positionAbsolute, absParentStyle, absChildStyle, getLayoutProperties,
    getBoxModel, nullish2, nullish3]
  norm_num

/-- Claim C4, amended: the child lands at x equal to 500 minus padding 15
minus border 2 minus right 10 minus width 50, which is 423, and y equal to
400 minus 15 minus 2 minus 10 minus 50, which is 323. -/
theorem absolute_corner_positions :
    (positionAbsolute { x := 0, y := 0, w := 500, h := 400 } absParentStyle
        (getLayoutProperties absChildStyle) absChildStyle
        { x := 0, y := 0, w := 50, h := 50 }).x = 423
    ∧ (positionAbsolute { x := 0, y := 0, w := 500, h := 400 } absParentStyle
        (getLayoutProperties absChildStyle) absChildStyle
        { x := 0, y := 0, w := 50, h := 50 }).y = 323 := by
  constructor <;>
    simp [positionAbsolute, absParentStyle, absChildStyle, getLayoutProperties,
      getBoxModel, nullish2, nullish3] <;>
    norm_num

/-- Claim C5: after positionAnchor runs with a resolved target, the world
coordinates of the selfAnchor point of the moved node equal the world
coordinates of the anchorPoint on the target plus the anchor offsets.  The
statement quantifies over all anchor names on both sides, which covers the
nine named points, and over all geometries and offsets. -/
theorem anchor_pins_self_to_target (target : Geom) (props : LayoutProps)
    (g : Geom) :
    (positionAnchor target props g).x
        + (anchorOffsets (positionAnchor target props g) props.selfAnchor).1
      = (getAnchorPointAbs target props.anchorPoint).1 + props.anchorOffsetX
    ∧ (positionAnchor target props g).y
        + (anchorOffsets (positionAnchor target props g) props.selfAnchor).2
      = (getAnchorPointAbs target props.anchorPoint).2 + props.anchorOffsetY := by
  have hwd : positionAnchor target props g
      = { g with
          x := g.x + ((getAnchorPointAbs target props.anchorPoint).1
            - (g.x + (anchorOffsets g props.selfAnchor).1)
            + props.anchorOffsetX)
          y := g.y + ((getAnchorPointAbs target props.anchorPoint).2
            - (g.y + (anchorOffsets g props.selfAnchor).2)
            + props.anchorOffsetY) } := rfl
  have hoff : anchorOffsets (positionAnchor target props g) props.selfAnchor
      = anchorOffsets g props.selfAnchor := by
    rw [hwd]
    simp [anchorOffsets]
  rw [hwd]
  rw [hwd] at hoff
  rw [hoff]
  constructor <;> (simp only []; ring)

set_option maxHeartbeats 1600000 in
/-- Claim C8: on the failing input, a parentless root whose computed style
says position absolute, processInstance forces the position to relative and
runs the flow layout, moving the child to the content origin 0 0; the debug
driver keeps the declared position, skips the flow-layout step, and leaves the
child untouched at 50 50. -/
theorem root_position_debug_divergence :
    ((processInstance 2 none absRoot).children.map Node.geom
        = [{ x := 0, y := 0, w := 10, h := 10 }])
    ∧ ((processInstanceDebug 2 none absRoot).children.map Node.geom
        = [{ x := 50, y := 50, w := 10, h := 10 }]) := by
  refine ⟨?_, ?_⟩
  · simp [processInstance, absRoot, applyStylesToInstance,
      getLayoutProperties, flowLayoutAllowed, includedInLayout, isOutOfFlowNode,
      hasPercentageSizing, widthPercentValue, heightPercentValue,
      applyNormalFlowLayout, reinsertInFlow, layoutVertical, getBoxModel,
      nullish2, nullish3, contentWidthOf, contentHeightOf, mkItemV, isFlexStyle,
      baseHeightOf, totalShrinkFactors, optPos, justifyStartOffset,
      justifySpaceBetween, justifySpaceAround, placeListV, placeChildV,
      Node.geom, Node.style, Node.children, Node.setGeom, Node.visible,
      Node.doLayout, applyFitContentSizing, getLayoutChildren, hasFlexChildren,
      hasFlexEntry, applyOutOfFlowLayoutNode, growLoop]
  · simp [processInstanceDebug, absRoot, applyStylesToInstance,
      getLayoutProperties, flowLayoutAllowed, includedInLayout, isOutOfFlowNode,
      hasPercentageSizing, widthPercentValue, heightPercentValue,
      applyNormalFlowLayout, reinsertInFlow, layoutVertical, getBoxModel,
      nullish2, nullish3, contentWidthOf, contentHeightOf, mkItemV, isFlexStyle,
      baseHeightOf, totalShrinkFactors, optPos, justifyStartOffset,
      justifySpaceBetween, justifySpaceAround, placeListV, placeChildV,
      Node.geom, Node.style, Node.children, Node.setGeom, Node.visible,
      Node.doLayout, applyFitContentSizing, getLayoutChildren, hasFlexChildren,
      hasFlexEntry, applyOutOfFlowLayoutNode, growLoop]

set_option maxHeartbeats 1600000 in
/-- Claim C2: the vertical fit-content scenario.  For every initial root size
and all initial child geometries, one layout pass over the root at 100 100
with display vertical, padding 20, gap 10, border 2 and fit-content, holding
three children of explicit width 200, height 80 and margin 5, sizes every
child to 200 by 80, places the children at y 127, 227 and 327 (each also at
x 127), and resizes the container to width 254 and height 334.  The result is
independent of the initial sizes because children with no declared flex
properties are classified as fixed items, so the pre-fit flow pass cannot
resize them. -/
theorem vertical_fit_content_scenario (w h : ℚ) (g1 g2 g3 : Geom) :
    processInstance 2 none (vfcRoot w h g1 g2 g3)
      = Node.mk { x := 100, y := 100, w := 254, h := 334 } vfcRootStyle true
          true
          [Node.mk { x := 127, y := 127, w := 200, h := 80 } vfcChildStyle
            true true [],
           Node.mk { x := 127, y := 227, w := 200, h := 80 } vfcChildStyle
            true true [],
           Node.mk { x := 127, y := 327, w := 200, h := 80 } vfcChildStyle
            true true []] := by
  simp [processInstance, vfcRoot, vfcChild, vfcRootStyle, vfcChildStyle,
    applyStylesToInstance, getLayoutProperties, flowLayoutAllowed,
    includedInLayout, isOutOfFlowNode, hasPercentageSizing, widthPercentValue,
    heightPercentValue, applyNormalFlowLayout, reinsertInFlow, layoutVertical,
    getBoxModel, nullish2, nullish3, contentWidthOf, contentHeightOf, mkItemV,
    isFlexStyle, baseHeightOf, totalShrinkFactors, optPos, justifyStartOffset,
    justifySpaceBetween, justifySpaceAround, placeListV, placeChildV,
    Node.geom, Node.style, Node.children, Node.setGeom, Node.visible,
    Node.doLayout, applyFitContentSizing, getLayoutChildren, getOuterWidth,
    getOuterHeight, hasFlexChildren, hasFlexEntry, applyOutOfFlowLayoutNode,
    growLoop]
  norm_num

/-- Claim C3: in the flex-grow scenario, a horizontal container of width 500
with zero padding, border and gap and two children of initial width 0 with
grow factors 1 and 2, the iterative distribution hands the children widths of
exactly 500 thirds and 1000 thirds, which are within 0.1 of 166.67 and 333.33,
and places them at main-axis offsets 0 and 500 thirds from the content origin
of the container, the latter within 0.1 of 166.67 (the container sits at x 0
with no padding or border, so child x coordinates are content offsets). -/
theorem flex_grow_distribution :
    ((layoutHorizontal { x := 0, y := 0, w := 500, h := 100 }
        (getLayoutProperties growContainerStyle) growContainerStyle
        [growChild 1, growChild 2]).map Node.geom
      = [{ x := 0, y := 0, w := 500 / 3, h := 40 },
         { x := 500 / 3, y := 0, w := 1000 / 3, h := 40 }])
    ∧ |500 / 3 - 16667 / 100| < (1 : ℚ) / 10
    ∧ |1000 / 3 - 33333 / 100| < (1 : ℚ) / 10 := by
  refine ⟨?_, by rw [abs_sub_comm]; rw [abs_of_nonneg (by norm_num)]; norm_num,
    by rw [abs_of_nonneg (by norm_num)]; norm_num⟩
  norm_num [layoutHorizontal, growContainerStyle, growChild, getLayoutProperties,
    getBoxModel, nullish2, nullish3, contentWidthOf, contentHeightOf, mkItemH,
    isFlexStyle, baseWidthOf, totalShrinkFactors, optPos, growLoop, growPassGo,
    growStep, growClampSize, justifyStartOffset, justifySpaceBetween,
    justifySpaceAround, placeListH, placeChildH, Node.geom, Node.style,
    Node.setGeom]
  simp

/-- Pointwise shrink safety: one step of the shrink pass never outputs a
negative target when the base size and the incoming target are nonnegative;
for an item with a positive declared shrink factor the floor at zero and the
min clamp make the output nonnegative whatever the deficit is. -/
theorem shrinkStep_target_nonneg (availMag tsf : ℚ) (it : FlexItem)
    (hb : 0 ≤ it.base) (ht : 0 ≤ it.target) :
    0 ≤ (shrinkStep availMag tsf it).target := by
  unfold shrinkStep
  by_cases hf : it.isFlex
  · simp only [hf, if_true]
    cases hs : it.shrinkOpt with
    | none => simpa using hb
    | some sh =>
      by_cases hsh : 0 < sh
      · simp only [hsh, if_true]
        cases hm : it.minC with
        | none =>
          simpa using le_max_left 0 (it.base - availMag * (sh * it.base / tsf))
        | some mn =>
          simp only []
          split_ifs with h1
          · have h0 : (0 : ℚ) ≤
                max 0 (it.base - availMag * (sh * it.base / tsf)) :=
              le_max_left _ _
            simpa using le_of_lt (lt_of_le_of_lt h0 h1)
          · simpa using le_max_left 0
              (it.base - availMag * (sh * it.base / tsf))
      · simp only [hsh, if_false]
        simpa using hb
  · simp only [hf, if_false]
    exact ht

/-- Claim C7: the shrink branch shared by layoutVertical and layoutHorizontal
never assigns a negative main-axis size.  The items the layouters feed to the
pass are built by mkItemV or mkItemH, which initialize the target to the base
size, so for children whose base main-axis sizes are nonnegative every item
coming out of the shrink pass has a nonnegative target, for both axes and for
every magnitude of the space deficit. -/
theorem shrink_pass_nonneg (availMag tsf : ℚ) (children : List Node)
    (hv : ∀ c ∈ children, 0 ≤ baseHeightOf c)
    (hw : ∀ c ∈ children, 0 ≤ baseWidthOf c) :
    (∀ it ∈ (children.map mkItemV).map (shrinkStep availMag tsf),
      0 ≤ it.target)
    ∧ (∀ it ∈ (children.map mkItemH).map (shrinkStep availMag tsf),
      0 ≤ it.target) := by
  constructor
  · intro it hit
    rw [List.mem_map] at hit
    obtain ⟨it0, hit0, rfl⟩ := hit
    rw [List.mem_map] at hit0
    obtain ⟨c, hc, rfl⟩ := hit0
    exact shrinkStep_target_nonneg availMag tsf (mkItemV c) (hv c hc) (hv c hc)
  · intro it hit
    rw [List.mem_map] at hit
    obtain ⟨it0, hit0, rfl⟩ := hit
    rw [List.mem_map] at hit0
    obtain ⟨c, hc, rfl⟩ := hit0
    exact shrinkStep_target_nonneg availMag tsf (mkItemH c) (hw c hc) (hw c hc)

/-- Claim C7, witness: the shrink pass at deficit magnitude 1000 over one
child of height 80 with shrink factor 1 produces a nonnegative target. -/
theorem shrink_pass_nonneg_witness :
    0 ≤ (shrinkStep 1000 80 (mkItemV (Node.mk
      { x := 0, y := 0, w := 100, h := 80 }
      { flexShrink := some 1 } true true []))).target := by
  exact (shrink_pass_nonneg 1000 80
    [Node.mk { x := 0, y := 0, w := 100, h := 80 }
      { flexShrink := some 1 } true true []]
    (by
      intro c hc
      simp at hc
      subst hc
      norm_num [baseHeightOf, Node.style, Node.geom])
    (by
      intro c hc
      simp at hc
      subst hc
      norm_num [baseWidthOf, Node.style, Node.geom])).1
    (shrinkStep 1000 80 (mkItemV (Node.mk { x := 0, y := 0, w := 100, h := 80 }
      { flexShrink := some 1 } true true [])))
    (by simp)

/-- Placing a child vertically changes only its position, not its height. -/
theorem placeChildV_height (cg : Geom) (bm : BoxModel) (cw : ℚ) (al : String)
    (curY : ℚ) (c : Node) :
    ((placeChildV cg bm cw al curY c).1).geom.h = c.geom.h := by
  cases c; rfl

/-- The vertical positioning loop preserves the heights of all children. -/
theorem placeListV_heights (cg : Geom) (bm : BoxModel) (cw : ℚ) (al : String)
    (gap sb sa : ℚ) (j : String) :
    ∀ (curY : ℚ) (cs : List Node),
      (placeListV cg bm cw al gap sb sa j curY cs).map (fun c => c.geom.h)
        = cs.map (fun c => c.geom.h) := by
  intro curY cs
  induction cs generalizing curY with
  | nil => rfl
  | cons c rest ih =>
    simp only [placeListV, List.map_cons]
    rw [placeChildV_height, ih]

/-- Placing a child horizontally changes only its position, not its width. -/
theorem placeChildH_width (cg : Geom) (bm : BoxModel) (ch : ℚ) (al : String)
    (curX : ℚ) (c : Node) :
    ((placeChildH cg bm ch al curX c).1).geom.w = c.geom.w := by
  cases c; rfl

/-- The horizontal positioning loop preserves the widths of all children. -/
theorem placeListH_widths (cg : Geom) (bm : BoxModel) (ch : ℚ) (al : String)
    (gap sb sa : ℚ) (j : String) :
    ∀ (curX : ℚ) (cs : List Node),
      (placeListH cg bm ch al gap sb sa j curX cs).map (fun c => c.geom.w)
        = cs.map (fun c => c.geom.w) := by
  intro curX cs
  induction cs generalizing curX with
  | nil => rfl
  | cons c rest ih =>
    simp only [placeListH, List.map_cons]
    rw [placeChildH_width, ih]

/-- With only fixed children the grow-factor sum of the vertical layouter is
zero, from any accumulator. -/
theorem fixed_grow_fold_v (children : List Node)
    (h : ∀ c ∈ children, isFlexStyle c.style = false) (a : ℚ) :
    (children.map mkItemV).foldl
      (fun a it => if it.isFlex then a + it.grow else a) a = a := by
  induction children generalizing a with
  | nil => rfl
  | cons c rest ih =>
    have hc : isFlexStyle c.style = false := h c (List.mem_cons_self c rest)
    simp only [List.map_cons, List.foldl_cons, mkItemV, hc, Bool.false_eq_true,
      if_false]
    exact ih (fun x hx => h x (List.mem_cons_of_mem c hx)) a

/-- With only fixed children the shrink-factor sum of the vertical layouter
stays at its accumulator. -/
theorem fixed_tsf_fold_v (children : List Node)
    (h : ∀ c ∈ children, isFlexStyle c.style = false) (a : Option ℚ) :
    (children.map mkItemV).foldl
      (fun a it =>
        if it.isFlex then
          match a, it.shrinkOpt with
          | some acc, some sh => some (acc + sh * it.base)
          | _, _ => none
        else a) a = a := by
  induction children generalizing a with
  | nil => rfl
  | cons c rest ih =>
    have hc : isFlexStyle c.style = false := h c (List.mem_cons_self c rest)
    simp only [List.map_cons, List.foldl_cons, mkItemV, hc, Bool.false_eq_true,
      if_false]
    exact ih (fun x hx => h x (List.mem_cons_of_mem c hx)) a

/-- With only fixed children the size-application step of the vertical
layouter returns the children unchanged. -/
theorem fixed_sized_v (children : List Node)
    (h : ∀ c ∈ children, isFlexStyle c.style = false) :
    (children.map mkItemV).map
      (fun it =>
        if it.isFlex then it.node.setGeom { it.node.geom with h := it.target }
        else it.node) = children := by
  induction children with
  | nil => rfl
  | cons c rest ih =>
    have hc : isFlexStyle c.style = false := h c (List.mem_cons_self c rest)
    simp only [List.map_cons, mkItemV, hc, Bool.false_eq_true, if_false]
    exact congrArg (c :: ·) (ih (fun x hx => h x (List.mem_cons_of_mem c hx)))

/-- Mirror of fixed_grow_fold_v for the horizontal layouter. -/
theorem fixed_grow_fold_h (children : List Node)
    (h : ∀ c ∈ children, isFlexStyle c.style = false) (a : ℚ) :
    (children.map mkItemH).foldl
      (fun a it => if it.isFlex then a + it.grow else a) a = a := by
  induction children generalizing a with
  | nil => rfl
  | cons c rest ih =>
    have hc : isFlexStyle c.style = false := h c (List.mem_cons_self c rest)
    simp only [List.map_cons, List.foldl_cons, mkItemH, hc, Bool.false_eq_true,
      if_false]
    exact ih (fun x hx => h x (List.mem_cons_of_mem c hx)) a

/-- Mirror of fixed_tsf_fold_v for the horizontal layouter. -/
theorem fixed_tsf_fold_h (children : List Node)
    (h : ∀ c ∈ children, isFlexStyle c.style = false) (a : Option ℚ) :
    (children.map mkItemH).foldl
      (fun a it =>
        if it.isFlex then
          match a, it.shrinkOpt with
          | some acc, some sh => some (acc + sh * it.base)
          | _, _ => none
        else a) a = a := by
  induction children generalizing a with
  | nil => rfl
  | cons c rest ih =>
    have hc : isFlexStyle c.style = false := h c (List.mem_cons_self c rest)
    simp only [List.map_cons, List.foldl_cons, mkItemH, hc, Bool.false_eq_true,
      if_false]
    exact ih (fun x hx => h x (List.mem_cons_of_mem c hx)) a

/-- Mirror of fixed_sized_v for the horizontal layouter. -/
theorem fixed_sized_h (children : List Node)
    (h : ∀ c ∈ children, isFlexStyle c.style = false) :
    (children.map mkItemH).map
      (fun it =>
        if it.isFlex then it.node.setGeom { it.node.geom with w := it.target }
        else it.node) = children := by
  induction children with
  | nil => rfl
  | cons c rest ih =>
    have hc : isFlexStyle c.style = false := h c (List.mem_cons_self c rest)
    simp only [List.map_cons, mkItemH, hc, Bool.false_eq_true, if_false]
    exact congrArg (c :: ·) (ih (fun x hx => h x (List.mem_cons_of_mem c hx)))

/-- Claim C10, counterexample: the claim asserts that the layouters treat a
child with an undeclared flexShrink as a flex item with shrink factor 1, but
for a plain child with no declared flex properties the classification of the
first layouter pass is fixed, not flex, and its shrink slot holds the NaN
marker, not 1: parseFloat of undefined is NaN and NaN is not greater than
zero. -/
theorem undeclared_shrink_not_flex :
    (mkItemV (Node.mk { x := 0, y := 0, w := 100, h := 80 } {} true true
      [])).isFlex = false
    ∧ (mkItemV (Node.mk { x := 0, y := 0, w := 100, h := 80 } {} true true
      [])).shrinkOpt = none := by
  constructor <;> rfl

/-- Claim C10, amended: the post-fit-content re-layout of processInstance
fires exactly when some in-flow child passes the hasFlexChildren test, namely
flexGrow positive, or flexShrink declared, or a truthy flexBasis different
from auto; and a child with an undeclared flexShrink and no positive flexGrow
is classified as a fixed item by both layouters (the undefined shrink parses
to NaN), so the flow layout never changes the main-axis size of such children
and they need no re-layout. -/
theorem relayout_condition_and_fixed_children :
    (∀ cs : List Node,
      hasFlexChildren cs = cs.any (fun c => hasFlexEntry c.style))
    ∧ (∀ c : Node, c.style.flexShrink = none →
        ¬ (0 < c.style.flexGrow.getD 0) →
        (mkItemV c).isFlex = false ∧ (mkItemH c).isFlex = false)
    ∧ (∀ (cg : Geom) (props : LayoutProps) (cstyle : Style)
        (children : List Node),
        (∀ c ∈ children, isFlexStyle c.style = false) →
        (layoutVertical cg props cstyle children).map (fun c => c.geom.h)
          = children.map (fun c => c.geom.h))
    ∧ (∀ (cg : Geom) (props : LayoutProps) (cstyle : Style)
        (children : List Node),
        (∀ c ∈ children, isFlexStyle c.style = false) →
        (layoutHorizontal cg props cstyle children).map (fun c => c.geom.w)
          = children.map (fun c => c.geom.w)) := by
  refine ⟨fun cs => rfl, ?_, ?_, ?_⟩
  · intro c hshrink hgrow
    have : isFlexStyle c.style = false := by
      simp [isFlexStyle, hshrink, hgrow]
    exact ⟨this, this⟩
  · intro cg props cstyle children h
    have hg := fixed_grow_fold_v children h 0
    have ht : totalShrinkFactors (children.map mkItemV) = some 0 := by
      unfold totalShrinkFactors
      exact fixed_tsf_fold_v children h (some 0)
    have hs := fixed_sized_v children h
    simp only [layoutVertical, hg, ht, hs, optPos, lt_self_iff_false,
      and_false, if_false, decide_eq_true_eq]
    rw [placeListV_heights]
  · intro cg props cstyle children h
    have hg := fixed_grow_fold_h children h 0
    have ht : totalShrinkFactors (children.map mkItemH) = some 0 := by
      unfold totalShrinkFactors
      exact fixed_tsf_fold_h children h (some 0)
    have hs := fixed_sized_h children h
    simp only [layoutHorizontal, hg, ht, hs, optPos, lt_self_iff_false,
      and_false, if_false, decide_eq_true_eq]
    rw [placeListH_widths]

/-- Claim C10, witness for the amended theorem: a plain child without flex
properties keeps its height through layoutVertical of a small container. -/
theorem relayout_condition_witness :
    (layoutVertical { x := 0, y := 0, w := 100, h := 50 }
      (getLayoutProperties {}) {}
      [Node.mk { x := 0, y := 0, w := 100, h := 80 } {} true true []]).map
        (fun c => c.geom.h)
      = [(80 : ℚ)] := by
  have h := relayout_condition_and_fixed_children.2.2.1
    { x := 0, y := 0, w := 100, h := 50 } (getLayoutProperties {}) {}
    [Node.mk { x := 0, y := 0, w := 100, h := 80 } {} true true []]
    (by intro c hc; simp at hc; subst hc; rfl)
  rw [h]
  rfl

theorem lookup_setProp (m : List (String × Val)) (k : String) (v : Val)
    (p : String) :
    lookupProp (setProp m k v) p = if k = p then some v else lookupProp m p := by
  induction m with
  | nil => simp [setProp, lookupProp]
  | cons e rest ih =>
    by_cases h1 : e.1 = k
    · simp only [setProp, if_pos h1, lookupProp]
      split_ifs <;> simp_all
    · simp only [setProp, if_neg h1, lookupProp, ih]
      split_ifs <;> simp_all

theorem specOr_absorb (a : Option Val) (v : Val) (b : Option Val) :
    specOr (specOr a (some v)) b = specOr a (some v) := by
  cases a <;> rfl

theorem specOr_none_right (a : Option Val) : specOr a none = a := by
  cases a <;> rfl

theorem lastWriteVal_foldl (p : String) (ws : List StyleWrite) :
    ∀ a : Option Val,
      ws.foldl (fun acc w => if w.key = p then some w.value else acc) a
        = specOr (lastWriteVal ws p) a := by
  induction ws with
  | nil => intro a; rfl
  | cons w ws ih =>
    intro a
    have hR : lastWriteVal (w :: ws) p
        = specOr (lastWriteVal ws p)
            (if w.key = p then some w.value else none) :=
      ih (if w.key = p then some w.value else none)
    rw [List.foldl_cons, ih (if w.key = p then some w.value else a), hR]
    cases hws : lastWriteVal ws p with
    | some v => rfl
    | none =>
      simp only [specOr]
      split_ifs <;> rfl

theorem lastImportantVal_foldl (p : String) (ws : List StyleWrite) :
    ∀ a : Option Val,
      ws.foldl
        (fun acc w =>
          if w.key = p ∧ w.important = true then some w.value else acc) a
        = specOr (lastImportantVal ws p) a := by
  induction ws with
  | nil => intro a; rfl
  | cons w ws ih =>
    intro a
    have hR : lastImportantVal (w :: ws) p
        = specOr (lastImportantVal ws p)
            (if w.key = p ∧ w.important = true then some w.value else none) :=
      ih (if w.key = p ∧ w.important = true then some w.value else none)
    rw [List.foldl_cons,
      ih (if w.key = p ∧ w.important = true then some w.value else a), hR]
    cases hws : lastImportantVal ws p with
    | some v => rfl
    | none =>
      simp only [specOr]
      split_ifs <;> rfl

theorem lastWriteVal_cons (p : String) (w : StyleWrite) (ws : List StyleWrite) :
    lastWriteVal (w :: ws) p
      = specOr (lastWriteVal ws p)
          (if w.key = p then some w.value else none) :=
  lastWriteVal_foldl p ws (if w.key = p then some w.value else none)

theorem lastImportantVal_cons (p : String) (w : StyleWrite)
    (ws : List StyleWrite) :
    lastImportantVal (w :: ws) p
      = specOr (lastImportantVal ws p)
          (if w.key = p ∧ w.important = true then some w.value else none) :=
  lastImportantVal_foldl p ws
    (if w.key = p ∧ w.important = true then some w.value else none)

theorem contains_applyWrite (st : MergeState) (w : StyleWrite) (p : String) :
    (applyWrite st w).appliedImportant.contains p
      = (st.appliedImportant.contains p || (w.important && w.key == p)) := by
  unfold applyWrite
  by_cases happ : (!st.appliedImportant.contains w.key || w.important) = true
  · rw [if_pos happ]
    by_cases hi : w.important = true
    · simp only [hi, if_true, List.contains_cons]
      cases hk : (p == w.key) <;> cases hc : st.appliedImportant.contains p <;>
        simp_all [BEq.comm]
    · have hif : w.important = false := Bool.eq_false_iff.mpr hi
      simp [hif]
  · rw [if_neg happ]
    have hif : w.important = false := by
      by_cases hb : w.important = true
      · exact absurd (by simp [hb]) happ
      · exact Bool.eq_false_iff.mpr hb
    simp [hif]

theorem lookup_applyWrite_hit (st : MergeState) (w : StyleWrite) (p : String)
    (happ : (!st.appliedImportant.contains w.key || w.important) = true)
    (hk : w.key = p) :
    lookupProp (applyWrite st w).finalStyle p = some w.value := by
  unfold applyWrite
  rw [if_pos happ]
  simp only []
  rw [lookup_setProp, if_pos hk]

theorem lookup_applyWrite_other (st : MergeState) (w : StyleWrite) (p : String)
    (hk : w.key ≠ p) :
    lookupProp (applyWrite st w).finalStyle p = lookupProp st.finalStyle p := by
  unfold applyWrite
  by_cases happ : (!st.appliedImportant.contains w.key || w.important) = true
  · rw [if_pos happ]
    simp only []
    rw [lookup_setProp, if_neg hk]
  · rw [if_neg happ]

theorem applyWrites_lookup (p : String) (ws : List StyleWrite) :
    ∀ st : MergeState,
      lookupProp (applyWrites st ws).finalStyle p
        = specOr (lastImportantVal ws p)
            (if st.appliedImportant.contains p then
              lookupProp st.finalStyle p
            else specOr (lastWriteVal ws p) (lookupProp st.finalStyle p)) := by
  induction ws with
  | nil =>
    intro st
    simp only [applyWrites, List.foldl_nil, lastImportantVal, lastWriteVal,
      List.foldl_nil, specOr]
    split_ifs <;> rfl
  | cons w ws ih =>
    intro st
    have hstep : applyWrites st (w :: ws) = applyWrites (applyWrite st w) ws :=
      rfl
    rw [hstep, ih (applyWrite st w), lastImportantVal_cons, lastWriteVal_cons,
      contains_applyWrite]
    by_cases hk : w.key = p
    · by_cases hi : w.important = true
      · have happ : (!st.appliedImportant.contains w.key || w.important)
            = true := by simp [hi]
        rw [lookup_applyWrite_hit st w p happ hk]
        have hcond : (st.appliedImportant.contains p
            || (w.important && w.key == p)) = true := by
          simp [hi, hk]
        rw [hcond, if_pos rfl]
        have h1 : (if w.key = p ∧ w.important = true
            then some w.value else none) = some w.value := by
          rw [if_pos ⟨hk, hi⟩]
        rw [h1, specOr_absorb]
      · have hif : w.important = false := Bool.eq_false_iff.mpr hi
        have h1 : (if w.key = p ∧ w.important = true
            then some w.value else none) = none := by
          rw [if_neg]
          intro hcon
          exact hi hcon.2
        have h2 : (if w.key = p then some w.value else none) = some w.value :=
          if_pos hk
        rw [h1, h2, specOr_none_right]
        by_cases hc : st.appliedImportant.contains p = true
        · have hskip : (!st.appliedImportant.contains w.key || w.important)
              = false := by
            rw [hk, hc, hif]
            rfl
          have hsame : applyWrite st w = st := by
            unfold applyWrite
            rw [if_neg (by rw [hskip]; exact Bool.false_ne_true)]
          have hcond : (st.appliedImportant.contains p
              || (w.important && w.key == p)) = true := by
            rw [hc]
            rfl
          rw [hsame, hcond, if_pos rfl, if_pos hc]
        · have hcf : st.appliedImportant.contains p = false :=
            Bool.eq_false_iff.mpr hc
          have happ : (!st.appliedImportant.contains w.key || w.important)
              = true := by
            rw [hk, hcf]
            rfl
          rw [lookup_applyWrite_hit st w p happ hk]
          have hcond : (st.appliedImportant.contains p
              || (w.important && w.key == p)) = false := by
            rw [hcf, hif]
            rfl
          rw [hcond, hcf]
          simp only [Bool.false_eq_true, if_false]
          rw [specOr_absorb]
    · have hne : (w.key == p) = false := by
        simpa using hk
      rw [lookup_applyWrite_other st w p hk]
      have hcond : (st.appliedImportant.contains p
          || (w.important && w.key == p))
          = st.appliedImportant.contains p := by
        simp [hne]
      rw [hcond]
      have h1 : (if w.key = p ∧ w.important = true
          then some w.value else none) = none := by
        rw [if_neg]
        intro hcon
        exact hk hcon.1
      have h2 : (if w.key = p then some w.value else none) = none :=
        if_neg hk
      rw [h1, h2, specOr_none_right, specOr_none_right]

theorem mergeStyles_eq_applyWrites (objs : List ParsedStyle) :
    mergeStyles objs
      = (applyWrites { finalStyle := [], appliedImportant := [] }
          (cascadeWrites objs)).finalStyle := by
  have key : ∀ (st : MergeState),
      objs.foldl
        (fun (st : MergeState) (obj : ParsedStyle) =>
          obj.computedStyle.foldl
            (fun st2 e => applyWrite st2 (writeOf obj.importantProperties e)) st)
        st
      = applyWrites st (cascadeWrites objs) := by
    induction objs with
    | nil => intro st; rfl
    | cons o objs ih =>
      intro st
      simp only [List.foldl_cons, cascadeWrites, List.map_cons, List.flatten]
      rw [ih]
      simp only [applyWrites, List.foldl_append, List.foldl_map]
      rfl
  unfold mergeStyles
  rw [key]

/-- Claim C6: the cascade rule of mergeStyles.  For every ordered list of
style objects (the classes in list order followed by the inline style) and
every property, the merged value is the value of the last important write of
the property if any write of it is important, and otherwise the value of the
last write of the property.  This is exactly the claimed behavior: a class
listed earlier loses to a later class that sets the property, the inline style
beats all classes, a value written with important survives any later
non-important write, and of two competing important writes the later one in
list order wins. -/
theorem mergeStyles_cascade_order (objs : List ParsedStyle) (p : String) :
    lookupProp (mergeStyles objs) p
      = specOr (lastImportantVal (cascadeWrites objs) p)
          (lastWriteVal (cascadeWrites objs) p) := by
  rw [mergeStyles_eq_applyWrites, applyWrites_lookup]
  simp only [List.contains, List.elem_nil, Bool.false_eq_true, if_false,
    lookupProp]
  rw [specOr_none_right]

/-- Claim C9: while debug mode is armed, the processInstance override of the
debug layouter returns without touching the tree: the whole tree, and with it
the x, y, width and height of every node, is exactly the same afterwards. -/
theorem armed_processInstance_is_noop (fuel : Nat) (n : Node) :
    debugProcessInstance true fuel n = n := by
  simp [debugProcessInstance]

end UIFlex
